import Mathlib

/-!
Shallow embedding of the ai-meal-generator RAG core (`rag/app/`), covering
the grounding verifier (`verify.py`), the schema validator (`validators.py`),
enrichment compaction and retrieval (`retrieval.py`), the embedding-backfill
routes (`routes/embed_routes.py`, `embedding.py`) and the generation route
(`routes/generate_routes.py`, `models.py`).

Conventions of the embedding:
- Python/JSON values are modelled by `PyVal`; Python truthiness by
  `PyVal.truthy`; `dict.get` by `dictGet` / `pyGet`.
- The relational store is a `DB` record of association lists; the SQL
  pattern `store ILIKE %s` (always called with a wildcard-free store name)
  is modelled as case-insensitive string equality `storeMatch`.
- External collaborators are parameters: `json.loads` is a parameter
  `jsonLoads : String → Option PyVal` (`Option.none` = parse error raised),
  the embedding provider is `embed : List String → List Vec`, and the
  pgvector cosine-distance operator `<=>` is a parameter
  `dist : Vec → Vec → Rat` (the ORDER BY only needs its values).
- A Python function that can raise an uncaught exception is modelled with
  an `Option`/sum result; pure total code returns plain values.
-/

/-- Python-side JSON-ish values (dict / list / str / int / bool / None).
JSON numbers are modelled as integers; no claim inspects numeric payloads. -/
inductive PyVal where
  | none
  | pstr (s : String)
  | pint (n : Int)
  | pbool (b : Bool)
  | plist (xs : List PyVal)
  | pdict (kvs : List (String × PyVal))

/-- Python truthiness (`bool(x)`): None, empty string, 0, False, empty
list and empty dict are falsy. -/
def PyVal.truthy : PyVal → Bool
  | .none => false
  | .pstr s => !s.isEmpty
  | .pint n => n != 0
  | .pbool b => b
  | .plist xs => !xs.isEmpty
  | .pdict kvs => !kvs.isEmpty

/-- `x is not None`. -/
def PyVal.isNotNone : PyVal → Bool
  | .none => false
  | _ => true

/-- Python `str(x)` as used on enrichment field values. Atomic values are
rendered exactly; container renderings are schematic (no claim depends on
the rendering of a container). -/
def pyStr : PyVal → String
  | .none => "None"
  | .pstr s => s
  | .pint n => toString n
  | .pbool b => if b then "True" else "False"
  | .plist _ => "[...]"
  | .pdict _ => "{...}"

/-- `d.get(k)` when the caller distinguishes a missing key (`Option.none`)
from a present value. -/
def dictGet (kvs : List (String × PyVal)) (k : String) : Option PyVal :=
  (kvs.find? (fun p => p.1 == k)).map Prod.snd

/-- `d.get(k)`: missing keys default to Python `None`. -/
def pyGet (kvs : List (String × PyVal)) (k : String) : PyVal :=
  (dictGet kvs k).getD .none

/-- Embedding vectors (`vector` column); exact reals are irrelevant to the
claims, so rational coordinates suffice. -/
abbrev Vec := List Rat

/-- A row of the `items` table (columns used by the core). Nullable payload
columns are `PyVal` (SQL NULL = `PyVal.none`). -/
structure Item where
  id : Int
  store : String
  name : String
  category_path : PyVal
  unit_size : PyVal
  price : PyVal
  tags_json : PyVal
  image_url : PyVal

/-- The relational state: `items`, one embedding table per space, and the
two enrichment tables, each keyed by item id. -/
structure DB where
  items : List Item
  item_embeddings : List (Int × Vec)
  item_nutrition : List (Int × PyVal)
  item_ingredients : List (Int × PyVal)
  item_nutrition_embeddings : List (Int × Vec)
  item_ingredients_embeddings : List (Int × Vec)

/-- Lookup of a row by item id in a keyed table. -/
def tblGet {α : Type} (tbl : List (Int × α)) (k : Int) : Option α :=
  (tbl.find? (fun p => p.1 == k)).map Prod.snd

/-- ASCII lowercasing of one character. -/
def lowerChar (c : Char) : Char :=
  if 65 ≤ c.toNat && c.toNat ≤ 90 then Char.ofNat (c.toNat + 32) else c

/-- ASCII lowercasing of a string (store names are ASCII identifiers such
as TRADER_JOES). -/
def strLower (s : String) : String :=
  String.mk (s.data.map lowerChar)

/-- `store ILIKE %s` with a wildcard-free store name: case-insensitive
equality. -/
def storeMatch (pat stored : String) : Bool :=
  strLower stored == strLower pat

/-! ## Grounding verifier (`app/verify.py`, `verify_item_ids_belong_to_store`) -/

/-- Outcome of `verify_item_ids_belong_to_store`: success, the HTTP 500
for an empty id list, or the HTTP 500 carrying the (truncated) missing ids. -/
inductive VerifyResult where
  | ok
  | errEmptyIds
  | errInvalidIds (missing : List Int)
deriving DecidableEq, Repr

/-- Python `sorted(set(xs))` on integer ids. -/
def sortedDedup (xs : List Int) : List Int :=
  List.insertionSort (· ≤ ·) xs.dedup

/-- Result of `SELECT id FROM items WHERE store ILIKE %s AND id = ANY(%s)`:
the ids of catalog rows of the store that appear in `ids`. -/
def storeItemIds (db : DB) (store : String) (ids : List Int) : List Int :=
  (db.items.filter (fun it => storeMatch store it.store && ids.contains it.id)).map Item.id

/-- `verify_item_ids_belong_to_store` (verify.py lines 8-37): fail on empty
ids; dedupe and sort; one membership query; report up to 25 missing ids. -/
def verify_item_ids_belong_to_store (db : DB) (store : String) (item_ids : List Int) : VerifyResult :=
  if item_ids.isEmpty then .errEmptyIds
  else
    let unique_ids := sortedDedup item_ids
    let found := storeItemIds db store unique_ids
    let missing := unique_ids.filter (fun i => !found.contains i)
    if missing.isEmpty then .ok else .errInvalidIds (missing.take 25)

/-! ### Helper lemmas about the verifier -/

theorem mem_sortedDedup (xs : List Int) (i : Int) : i ∈ sortedDedup xs ↔ i ∈ xs := by
  unfold sortedDedup
  rw [(List.perm_insertionSort (· ≤ ·) xs.dedup).mem_iff]
  exact List.mem_dedup

theorem sortedDedup_nil_iff (xs : List Int) : sortedDedup xs = [] ↔ xs = [] := by
  constructor
  · intro h
    cases xs with
    | nil => rfl
    | cons a t =>
      exfalso
      have : a ∈ sortedDedup (a :: t) := (mem_sortedDedup _ _).mpr (List.mem_cons_self a t)
      rw [h] at this
      exact List.not_mem_nil a this
  · rintro rfl
    rfl

theorem sortedDedup_sorted (xs : List Int) : List.Sorted (· ≤ ·) (sortedDedup xs) :=
  List.sorted_insertionSort (· ≤ ·) xs.dedup

theorem sortedDedup_nodup (xs : List Int) : (sortedDedup xs).Nodup :=
  (List.perm_insertionSort (· ≤ ·) xs.dedup).nodup_iff.mpr xs.nodup_dedup

theorem sortedDedup_eq_of_toFinset_eq {xs ys : List Int} (h : xs.toFinset = ys.toFinset) :
    sortedDedup xs = sortedDedup ys := by
  apply List.eq_of_perm_of_sorted ?_ (sortedDedup_sorted xs) (sortedDedup_sorted ys)
  apply List.perm_of_nodup_nodup_toFinset_eq (sortedDedup_nodup xs) (sortedDedup_nodup ys)
  ext a
  simp only [List.mem_toFinset, mem_sortedDedup]
  rw [← List.mem_toFinset, ← List.mem_toFinset (l := ys), h]

/-- Membership in the id set returned by the verifier query. -/
theorem mem_storeItemIds (db : DB) (store : String) (ids : List Int) (i : Int) :
    i ∈ storeItemIds db store ids ↔
      i ∈ ids ∧ ∃ it ∈ db.items, storeMatch store it.store = true ∧ it.id = i := by
  unfold storeItemIds
  simp only [List.mem_map, List.mem_filter, Bool.and_eq_true, List.elem_iff]
  constructor
  · rintro ⟨it, ⟨hmem, hst, hin⟩, rfl⟩
    exact ⟨hin, it, hmem, hst, rfl⟩
  · rintro ⟨hin, it, hmem, hst, rfl⟩
    exact ⟨it, ⟨hmem, hst, hin⟩, rfl⟩

/-- Found-predicate for a single id: some catalog row of the store has
this id. -/
def idFoundInStore (db : DB) (store : String) (i : Int) : Prop :=
  ∃ it ∈ db.items, storeMatch store it.store = true ∧ it.id = i

instance (db : DB) (store : String) (i : Int) : Decidable (idFoundInStore db store i) := by
  unfold idFoundInStore
  infer_instance

theorem mem_verifyMissing (db : DB) (store : String) (ids : List Int) (i : Int) :
    (i ∈ (sortedDedup ids).filter
        (fun j => !(storeItemIds db store (sortedDedup ids)).contains j)) ↔
      i ∈ ids ∧ ¬ idFoundInStore db store i := by
  simp only [List.mem_filter, Bool.not_eq_true', ← Bool.not_eq_true, List.elem_iff,
    mem_sortedDedup, mem_storeItemIds, idFoundInStore]
  constructor
  · rintro ⟨hin, hnot⟩
    exact ⟨hin, fun hf => hnot ⟨hin, hf⟩⟩
  · rintro ⟨hin, hnf⟩
    exact ⟨hin, fun hf => hnf hf.2⟩

/-- C1: the grounding verifier fails immediately on an empty id list;
otherwise it checks every id against the catalog scoped to the store
(case-insensitively), succeeds iff every id is found, and any missing id
fails the whole request with at most 25 missing ids in the detail. -/
theorem C1_grounding_verifier (db : DB) (store : String) (item_ids : List Int) :
    (item_ids = [] → verify_item_ids_belong_to_store db store item_ids = VerifyResult.errEmptyIds)
    ∧ (verify_item_ids_belong_to_store db store item_ids = VerifyResult.ok ↔
        item_ids ≠ [] ∧ ∀ i ∈ item_ids, idFoundInStore db store i)
    ∧ (∀ m, verify_item_ids_belong_to_store db store item_ids = VerifyResult.errInvalidIds m →
        m.length ≤ 25 ∧ ∃ i ∈ item_ids, ¬ idFoundInStore db store i) := by
  rcases item_ids with _ | ⟨a, t⟩
  · refine ⟨fun _ => rfl, ?_, ?_⟩
    · simp [verify_item_ids_belong_to_store]
    · intro m h
      simp [verify_item_ids_belong_to_store] at h
  · have hne : (a :: t) ≠ ([] : List Int) := by simp
    set L := (sortedDedup (a :: t)).filter
      (fun i => !(storeItemIds db store (sortedDedup (a :: t))).contains i) with hLdef
    have hred : verify_item_ids_belong_to_store db store (a :: t) =
        if L.isEmpty then VerifyResult.ok else VerifyResult.errInvalidIds (L.take 25) := rfl
    have hex_of_ne : L ≠ [] → ∃ i ∈ (a :: t), ¬ idFoundInStore db store i := by
      intro hLne
      obtain ⟨x, hx⟩ := List.exists_mem_of_ne_nil L hLne
      have := (mem_verifyMissing db store (a :: t) x).mp hx
      exact ⟨x, this.1, this.2⟩
    refine ⟨fun h => absurd h hne, ?_, ?_⟩
    · rw [hred]
      by_cases he : L.isEmpty = true
      · have hLnil : L = [] := List.isEmpty_iff.mp he
        simp only [he, if_true]
        constructor
        · intro _
          refine ⟨hne, fun i hi => ?_⟩
          by_contra hnf
          have : i ∈ L := (mem_verifyMissing db store (a :: t) i).mpr ⟨hi, hnf⟩
          rw [hLnil] at this
          exact List.not_mem_nil i this
        · intro _
          trivial
      · simp only [he, if_false]
        constructor
        · intro h
          exact absurd h (by simp)
        · rintro ⟨-, hall⟩
          obtain ⟨i, hi, hnf⟩ := hex_of_ne (fun hnil => he (by rw [hnil]; rfl))
          exact absurd (hall i hi) hnf
    · intro m h
      rw [hred] at h
      by_cases he : L.isEmpty = true
      · rw [if_pos he] at h
        exact absurd h (by simp)
      · rw [if_neg he] at h
        have hm : L.take 25 = m := by
          injection h
        refine ⟨?_, hex_of_ne (fun hnil => he (by rw [hnil]; rfl))⟩
        rw [← hm]
        exact List.length_take_le 25 L

/-- Witness for C1 at a concrete store and id list: ids [7, 7] are all in
the catalog of store TJ under case-insensitive matching, so verification
succeeds; and the empty list fails immediately. -/
theorem C1_grounding_verifier_witness :
    verify_item_ids_belong_to_store
        ⟨[⟨7, "TJ", "apple", .none, .none, .none, .none, .none⟩], [], [], [], [], []⟩
        "tj" [7, 7] = VerifyResult.ok
    ∧ verify_item_ids_belong_to_store
        ⟨[⟨7, "TJ", "apple", .none, .none, .none, .none, .none⟩], [], [], [], [], []⟩
        "tj" [] = VerifyResult.errEmptyIds := by
  constructor
  · exact (C1_grounding_verifier _ "tj" [7, 7]).2.1.mpr
      ⟨by simp, by
        intro i hi
        simp only [List.mem_cons, List.not_mem_nil, or_false] at hi
        rcases hi with rfl | rfl <;>
          exact ⟨⟨7, "TJ", "apple", .none, .none, .none, .none, .none⟩, by simp, by decide, rfl⟩⟩
  · exact (C1_grounding_verifier _ "tj" []).1 rfl

/-- C10: the verifier outcome depends only on the underlying set of ids,
not their order or multiplicity. -/
theorem C10_verify_depends_only_on_id_set (db : DB) (store : String) (ids1 ids2 : List Int)
    (h : ids1.toFinset = ids2.toFinset) :
    verify_item_ids_belong_to_store db store ids1 =
      verify_item_ids_belong_to_store db store ids2 := by
  have hsd : sortedDedup ids1 = sortedDedup ids2 := sortedDedup_eq_of_toFinset_eq h
  have hiff : ids1 = [] ↔ ids2 = [] := by
    rw [← List.toFinset_eq_empty_iff, ← List.toFinset_eq_empty_iff, h]
  have hnil : ids1.isEmpty = ids2.isEmpty := by
    by_cases h1 : ids1 = []
    · rw [h1, hiff.mp h1]
    · have h2 : ids2 ≠ [] := fun hh => h1 (hiff.mpr hh)
      have e1 : ids1.isEmpty = false := by
        cases hb : ids1.isEmpty
        · rfl
        · exact absurd (List.isEmpty_iff.mp hb) h1
      have e2 : ids2.isEmpty = false := by
        cases hb : ids2.isEmpty
        · rfl
        · exact absurd (List.isEmpty_iff.mp hb) h2
      rw [e1, e2]
  unfold verify_item_ids_belong_to_store
  rw [hsd, hnil]

/-- Witness for C10: two id lists with the same underlying set but
different order and multiplicity verify identically. -/
theorem C10_verify_depends_only_on_id_set_witness :
    verify_item_ids_belong_to_store
        ⟨[⟨7, "TJ", "apple", .none, .none, .none, .none, .none⟩], [], [], [], [], []⟩
        "TJ" [1, 7, 7, 1] =
      verify_item_ids_belong_to_store
        ⟨[⟨7, "TJ", "apple", .none, .none, .none, .none, .none⟩], [], [], [], [], []⟩
        "TJ" [7, 1] :=
  C10_verify_depends_only_on_id_set _ "TJ" [1, 7, 7, 1] [7, 1] (by decide)

/-! ## Schema validator (`app/validators.py`)

The pydantic models PlanItem / Meal / DayPlan / MealPlanDoc are embedded as
Lean structures, and `MealPlanDoc.model_validate` as a structural walk over
the parsed JSON value that accumulates all violations (pydantic collects
every error; `parse_and_validate_plan_json` then truncates to 5). -/

structure PlanItem where
  id : Int
  name : String
deriving DecidableEq, Repr

structure Meal where
  name : String
  items : List PlanItem
deriving DecidableEq, Repr

structure DayPlan where
  date : String
  meals : List Meal
deriving DecidableEq, Repr

structure MealPlanDoc where
  title : String
  startDate : String
  endDate : String
  plan : List DayPlan
deriving DecidableEq, Repr

/-- Validation of a required string field of a pydantic model. -/
def vStrField (loc : String) (kvs : List (String × PyVal)) (key : String) :
    List String × Option String :=
  match dictGet kvs key with
  | Option.none => ([loc ++ "." ++ key ++ ": missing"], Option.none)
  | some (.pstr s) => ([], some s)
  | some _ => ([loc ++ "." ++ key ++ ": string_type"], Option.none)

/-- Validation of a required integer field of a pydantic model. -/
def vIntField (loc : String) (kvs : List (String × PyVal)) (key : String) :
    List String × Option Int :=
  match dictGet kvs key with
  | Option.none => ([loc ++ "." ++ key ++ ": missing"], Option.none)
  | some (.pint n) => ([], some n)
  | some _ => ([loc ++ "." ++ key ++ ": int_type"], Option.none)

/-- Indexed elementwise validation of a JSON list, accumulating the errors
of every element (as pydantic does). -/
def vListAux {α : Type} (f : Nat → PyVal → List String × Option α) (idx : Nat) :
    List PyVal → List String × Option (List α)
  | [] => ([], some [])
  | x :: xs =>
    let r := f idx x
    let rs := vListAux f (idx + 1) xs
    (r.1 ++ rs.1,
      match r.2, rs.2 with
      | some y, some ys => some (y :: ys)
      | _, _ => Option.none)

/-- `PlanItem`: `{id: int, name: str}`. -/
def vPlanItem (loc : String) (v : PyVal) : List String × Option PlanItem :=
  match v with
  | .pdict kvs =>
    let ei := vIntField loc kvs "id"
    let en := vStrField loc kvs "name"
    (ei.1 ++ en.1,
      match ei.2, en.2 with
      | some i, some n => some ⟨i, n⟩
      | _, _ => Option.none)
  | _ => ([loc ++ ": model_type"], Option.none)

/-- The `Literal` meal names of `Meal.name` (validators.py line 16). -/
def mealNames : List String := ["Breakfast", "Lunch", "Dinner"]

/-- `Meal.name`: a `Literal` constrained to the three meal names. -/
def vMealName (loc : String) (kvs : List (String × PyVal)) : List String × Option String :=
  match dictGet kvs "name" with
  | Option.none => ([loc ++ ".name: missing"], Option.none)
  | some (.pstr s) =>
    if mealNames.contains s then ([], some s)
    else ([loc ++ ".name: literal_error"], Option.none)
  | some _ => ([loc ++ ".name: literal_error"], Option.none)

/-- `Meal.items`: a list of 1 to 8 `PlanItem`s (`min_length=1,
max_length=8`). -/
def vMealItems (loc : String) (kvs : List (String × PyVal)) :
    List String × Option (List PlanItem) :=
  match dictGet kvs "items" with
  | Option.none => ([loc ++ ".items: missing"], Option.none)
  | some (.plist xs) =>
    let lenErrs :=
      (if xs.length < 1 then [loc ++ ".items: too_short"] else [])
        ++ (if xs.length > 8 then [loc ++ ".items: too_long"] else [])
    let r := vListAux (fun i => vPlanItem (loc ++ ".items." ++ toString i)) 0 xs
    (lenErrs ++ r.1, if lenErrs.isEmpty then r.2 else Option.none)
  | some _ => ([loc ++ ".items: list_type"], Option.none)

/-- `Meal` (validators.py lines 14-17). -/
def vMeal (loc : String) (v : PyVal) : List String × Option Meal :=
  match v with
  | .pdict kvs =>
    ((vMealName loc kvs).1 ++ (vMealItems loc kvs).1,
      match (vMealName loc kvs).2, (vMealItems loc kvs).2 with
      | some n, some its => some ⟨n, its⟩
      | _, _ => Option.none)
  | _ => ([loc ++ ": model_type"], Option.none)

/-- `DayPlan.meals`: a list of exactly 3 `Meal`s (`min_length=3,
max_length=3`). -/
def vDayMeals (loc : String) (kvs : List (String × PyVal)) :
    List String × Option (List Meal) :=
  match dictGet kvs "meals" with
  | Option.none => ([loc ++ ".meals: missing"], Option.none)
  | some (.plist xs) =>
    let lenErrs :=
      (if xs.length < 3 then [loc ++ ".meals: too_short"] else [])
        ++ (if xs.length > 3 then [loc ++ ".meals: too_long"] else [])
    let r := vListAux (fun i => vMeal (loc ++ ".meals." ++ toString i)) 0 xs
    (lenErrs ++ r.1, if lenErrs.isEmpty then r.2 else Option.none)
  | some _ => ([loc ++ ".meals: list_type"], Option.none)

/-- `DayPlan` (validators.py lines 20-23). -/
def vDayPlan (loc : String) (v : PyVal) : List String × Option DayPlan :=
  match v with
  | .pdict kvs =>
    ((vStrField loc kvs "date").1 ++ (vDayMeals loc kvs).1,
      match (vStrField loc kvs "date").2, (vDayMeals loc kvs).2 with
      | some d, some ms => some ⟨d, ms⟩
      | _, _ => Option.none)
  | _ => ([loc ++ ": model_type"], Option.none)

/-- `MealPlanDoc.plan`: a list of `DayPlan` (no length constraint). -/
def vPlanField (kvs : List (String × PyVal)) : List String × Option (List DayPlan) :=
  match dictGet kvs "plan" with
  | Option.none => (["$.plan: missing"], Option.none)
  | some (.plist xs) => vListAux (fun i => vDayPlan ("$.plan." ++ toString i)) 0 xs
  | some _ => (["$.plan: list_type"], Option.none)

/-- `MealPlanDoc.model_validate`: `title`, `startDate`, `endDate` strings
and `plan` a list of `DayPlan` (validators.py lines 34-39; `_meta` is a
private optional field and extra keys are ignored). -/
def model_validate (v : PyVal) : Except (List String) MealPlanDoc :=
  match v with
  | .pdict kvs =>
    let et := vStrField "$" kvs "title"
    let es := vStrField "$" kvs "startDate"
    let ee := vStrField "$" kvs "endDate"
    let ep := vPlanField kvs
    match et.2, es.2, ee.2, ep.2 with
    | some t, some s, some e, some p =>
      Except.ok ⟨t, s, e, p⟩
    | _, _, _, _ => Except.error (et.1 ++ es.1 ++ ee.1 ++ ep.1)
  | _ => Except.error ["$: model_type"]

/-- Outcome of `parse_and_validate_plan_json`: the empty-response HTTP 500,
the not-JSON HTTP 500, the schema HTTP 500 with truncated violations, or
the validated document. -/
inductive ValidateResult where
  | errEmptyResponse
  | errNotJson
  | errSchemaInvalid (errors : List String)
  | ok (doc : MealPlanDoc)
deriving DecidableEq, Repr

/-- Python whitespace for `str.strip()`. -/
def isPySpace (c : Char) : Bool :=
  c == ' ' || c == '\t' || c == '\n' || c == '\r' || c == '\x0b' || c == '\x0c'

/-- Python `s.strip()`: drop leading and trailing whitespace. -/
def pyStrip (s : String) : String :=
  String.mk (((s.data.dropWhile isPySpace).reverse.dropWhile isPySpace).reverse)

/-- `parse_and_validate_plan_json` (validators.py lines 42-66): guard
against empty/whitespace-only text, `json.loads`, pydantic validation with
the error list truncated to the first 5 entries. -/
def parse_and_validate_plan_json (jsonLoads : String → Option PyVal) (content : String) :
    ValidateResult :=
  if content.isEmpty || (pyStrip content).isEmpty then .errEmptyResponse
  else
    match jsonLoads content with
    | Option.none => .errNotJson
    | some raw =>
      match model_validate raw with
      | .ok doc => .ok doc
      | .error errs => .errSchemaInvalid (errs.take 5)

/-- `extract_item_ids` (validators.py lines 69-75): every item id of the
document, in day / meal / item order, duplicates included. -/
def extract_item_ids (doc : MealPlanDoc) : List Int :=
  doc.plan.flatMap (fun day => day.meals.flatMap (fun m => m.items.map PlanItem.id))

/-! ### Validator lemmas -/

theorem vListAux_snd_some {α : Type} (f : Nat → PyVal → List String × Option α) :
    ∀ (idx : Nat) (xs : List PyVal) (ys : List α),
      (vListAux f idx xs).2 = some ys →
      ys.length = xs.length ∧ ∀ y ∈ ys, ∃ i x, x ∈ xs ∧ (f i x).2 = some y := by
  intro idx xs
  induction xs generalizing idx with
  | nil =>
    intro ys h
    simp only [vListAux] at h
    obtain rfl : ([] : List α) = ys := Option.some.inj h
    exact ⟨rfl, by simp⟩
  | cons x xs ih =>
    intro ys h
    simp only [vListAux] at h
    rcases hr : (f idx x).2 with _ | y <;> rw [hr] at h
    · simp at h
    · rcases hrs : (vListAux f (idx + 1) xs).2 with _ | ys' <;> rw [hrs] at h
      · simp at h
      · obtain rfl : y :: ys' = ys := Option.some.inj h
        obtain ⟨hlen, hmem⟩ := ih (idx + 1) ys' hrs
        refine ⟨by simp [hlen], ?_⟩
        intro y0 hy0
        rcases List.mem_cons.mp hy0 with rfl | hy0'
        · exact ⟨idx, x, List.mem_cons_self x xs, hr⟩
        · obtain ⟨i, x', hx', hfx⟩ := hmem y0 hy0'
          exact ⟨i, x', List.mem_cons_of_mem x hx', hfx⟩

theorem vMealName_snd_some (loc : String) (kvs : List (String × PyVal)) (n : String)
    (h : (vMealName loc kvs).2 = some n) :
    n = "Breakfast" ∨ n = "Lunch" ∨ n = "Dinner" := by
  rcases hg : dictGet kvs "name" with _ | nv
  · simp [vMealName, hg] at h
  · cases nv with
    | pstr s =>
      simp only [vMealName, hg] at h
      by_cases hmn : mealNames.contains s
      · rw [if_pos hmn] at h
        obtain rfl : s = n := by simpa using h
        have hs : s ∈ mealNames := List.elem_iff.mp hmn
        simpa [mealNames] using hs
      · rw [if_neg hmn] at h
        simp at h
    | none => simp [vMealName, hg] at h
    | pint k => simp [vMealName, hg] at h
    | pbool b => simp [vMealName, hg] at h
    | plist xs => simp [vMealName, hg] at h
    | pdict kvs2 => simp [vMealName, hg] at h

theorem vMealItems_snd_some (loc : String) (kvs : List (String × PyVal))
    (its : List PlanItem) (h : (vMealItems loc kvs).2 = some its) :
    1 ≤ its.length ∧ its.length ≤ 8 := by
  rcases hg : dictGet kvs "items" with _ | iv
  · simp [vMealItems, hg] at h
  · cases iv with
    | plist xs =>
      simp only [vMealItems, hg] at h
      by_cases h1 : xs.length < 1
      · rw [if_pos h1] at h
        simp at h
      · by_cases h8 : xs.length > 8
        · rw [if_neg h1, if_pos h8] at h
          simp at h
        · rw [if_neg h1, if_neg h8] at h
          simp only [List.nil_append, List.isEmpty_nil, if_true] at h
          have hlen := (vListAux_snd_some _ 0 xs its h).1
          omega
    | none => simp [vMealItems, hg] at h
    | pstr s => simp [vMealItems, hg] at h
    | pint k => simp [vMealItems, hg] at h
    | pbool b => simp [vMealItems, hg] at h
    | pdict kvs2 => simp [vMealItems, hg] at h

theorem vMeal_snd_some (loc : String) (v : PyVal) (m : Meal)
    (h : (vMeal loc v).2 = some m) :
    (m.name = "Breakfast" ∨ m.name = "Lunch" ∨ m.name = "Dinner")
      ∧ 1 ≤ m.items.length ∧ m.items.length ≤ 8 := by
  cases v with
  | pdict kvs =>
    simp only [vMeal] at h
    rcases hn : (vMealName loc kvs).2 with _ | n <;> rw [hn] at h
    · simp at h
    · rcases hi : (vMealItems loc kvs).2 with _ | its <;> rw [hi] at h
      · simp at h
      · obtain rfl : Meal.mk n its = m := by simpa using h
        exact ⟨vMealName_snd_some loc kvs n hn, vMealItems_snd_some loc kvs its hi⟩
  | none => simp [vMeal] at h
  | pstr s => simp [vMeal] at h
  | pint n => simp [vMeal] at h
  | pbool b => simp [vMeal] at h
  | plist xs => simp [vMeal] at h

theorem vDayMeals_snd_some (loc : String) (kvs : List (String × PyVal))
    (ms : List Meal) (h : (vDayMeals loc kvs).2 = some ms) :
    ms.length = 3 ∧ ∀ m ∈ ms, ∃ loc2 v2, (vMeal loc2 v2).2 = some m := by
  rcases hg : dictGet kvs "meals" with _ | mv
  · simp [vDayMeals, hg] at h
  · cases mv with
    | plist xs =>
      simp only [vDayMeals, hg] at h
      by_cases h3 : xs.length < 3
      · rw [if_pos h3] at h
        simp at h
      · by_cases hg3 : xs.length > 3
        · rw [if_neg h3, if_pos hg3] at h
          simp at h
        · rw [if_neg h3, if_neg hg3] at h
          simp only [List.nil_append, List.isEmpty_nil, if_true] at h
          obtain ⟨hlen, hmem⟩ := vListAux_snd_some _ 0 xs ms h
          refine ⟨by omega, ?_⟩
          intro m hm
          obtain ⟨i, x, -, hfx⟩ := hmem m hm
          exact ⟨loc ++ ".meals." ++ toString i, x, hfx⟩
    | none => simp [vDayMeals, hg] at h
    | pstr s => simp [vDayMeals, hg] at h
    | pint k => simp [vDayMeals, hg] at h
    | pbool b => simp [vDayMeals, hg] at h
    | pdict kvs2 => simp [vDayMeals, hg] at h

theorem vDayPlan_snd_some (loc : String) (v : PyVal) (day : DayPlan)
    (h : (vDayPlan loc v).2 = some day) :
    day.meals.length = 3 ∧ ∀ m ∈ day.meals, ∃ loc2 v2, (vMeal loc2 v2).2 = some m := by
  cases v with
  | pdict kvs =>
    simp only [vDayPlan] at h
    rcases hd : (vStrField loc kvs "date").2 with _ | d <;> rw [hd] at h
    · simp at h
    · rcases hm : (vDayMeals loc kvs).2 with _ | ms <;> rw [hm] at h
      · simp at h
      · obtain rfl : DayPlan.mk d ms = day := by simpa using h
        exact vDayMeals_snd_some loc kvs ms hm
  | none => simp [vDayPlan] at h
  | pstr s => simp [vDayPlan] at h
  | pint n => simp [vDayPlan] at h
  | pbool b => simp [vDayPlan] at h
  | plist xs => simp [vDayPlan] at h

theorem model_validate_ok_days (v : PyVal) (d : MealPlanDoc)
    (h : model_validate v = Except.ok d) :
    ∀ day ∈ d.plan, ∃ loc2 v2, (vDayPlan loc2 v2).2 = some day := by
  cases v with
  | pdict kvs =>
    simp only [model_validate] at h
    rcases ht : (vStrField "$" kvs "title").2 with _ | t <;> rw [ht] at h
    · simp at h
    · rcases hs : (vStrField "$" kvs "startDate").2 with _ | s <;> rw [hs] at h
      · simp at h
      · rcases he : (vStrField "$" kvs "endDate").2 with _ | e <;> rw [he] at h
        · simp at h
        · rcases hp : (vPlanField kvs).2 with _ | p <;> rw [hp] at h
          · simp at h
          · obtain rfl : MealPlanDoc.mk t s e p = d := by simpa using h
            intro day hday
            rcases hgp : dictGet kvs "plan" with _ | pv
            · simp [vPlanField, hgp] at hp
            · cases pv with
              | plist xs =>
                simp only [vPlanField, hgp] at hp
                obtain ⟨-, hmem⟩ := vListAux_snd_some _ 0 xs p hp
                obtain ⟨i, x, -, hfx⟩ := hmem day hday
                exact ⟨"$.plan." ++ toString i, x, hfx⟩
              | none => simp [vPlanField, hgp] at hp
              | pstr s2 => simp [vPlanField, hgp] at hp
              | pint k => simp [vPlanField, hgp] at hp
              | pbool b => simp [vPlanField, hgp] at hp
              | pdict kvs2 => simp [vPlanField, hgp] at hp
  | none => simp [model_validate] at h
  | pstr s => simp [model_validate] at h
  | pint n => simp [model_validate] at h
  | pbool b => simp [model_validate] at h
  | plist xs => simp [model_validate] at h

/-- C2 (amended): every accepted plan has, per day, exactly three meals
whose names are drawn from Breakfast / Lunch / Dinner, each meal with 1 to
8 items; the validator does not force the three names to be distinct. -/
theorem C2_accepted_plan_day_shape (v : PyVal) (d : MealPlanDoc)
    (h : model_validate v = Except.ok d) :
    ∀ day ∈ d.plan, day.meals.length = 3 ∧
      ∀ m ∈ day.meals,
        (m.name = "Breakfast" ∨ m.name = "Lunch" ∨ m.name = "Dinner")
          ∧ 1 ≤ m.items.length ∧ m.items.length ≤ 8 := by
  intro day hday
  obtain ⟨loc2, v2, hv⟩ := model_validate_ok_days v d h day hday
  obtain ⟨h3, hms⟩ := vDayPlan_snd_some loc2 v2 day hv
  refine ⟨h3, ?_⟩
  intro m hm
  obtain ⟨loc3, v3, hv3⟩ := hms m hm
  exact vMeal_snd_some loc3 v3 m hv3

/-- A meal JSON object with one item, used for concrete validator runs. -/
def mealPy (nm : String) : PyVal :=
  .pdict [("name", .pstr nm),
          ("items", .plist [.pdict [("id", .pint 7), ("name", .pstr "apple")]])]

/-- A generated document whose single day lists Breakfast twice and no
Dinner. -/
def dupMealDayDoc : PyVal :=
  .pdict [("title", .pstr "t"), ("startDate", .pstr "2026-01-01"),
          ("endDate", .pstr "2026-01-01"),
          ("plan", .plist [.pdict [("date", .pstr "2026-01-01"),
            ("meals", .plist [mealPy "Breakfast", mealPy "Breakfast", mealPy "Lunch"])]])]

/-- The day the validator accepts for `dupMealDayDoc`. -/
def dupDay : DayPlan :=
  ⟨"2026-01-01",
    [⟨"Breakfast", [⟨7, "apple"⟩]⟩, ⟨"Breakfast", [⟨7, "apple"⟩]⟩, ⟨"Lunch", [⟨7, "apple"⟩]⟩]⟩

/-- The document the validator accepts for `dupMealDayDoc`. -/
def dupMealDayParsed : MealPlanDoc :=
  ⟨"t", "2026-01-01", "2026-01-01", [dupDay]⟩

/-- C2 counterexample: the validator accepts a day whose meal names are
Breakfast, Breakfast, Lunch — Breakfast occurs twice and Dinner never,
so accepted days need not carry each fixed meal name exactly once. -/
theorem C2_counterexample_duplicate_meal_names :
    model_validate dupMealDayDoc = Except.ok dupMealDayParsed
      ∧ (dupDay.meals.map Meal.name).count "Breakfast" = 2
      ∧ (dupDay.meals.map Meal.name).count "Dinner" = 0 := by
  refine ⟨rfl, by decide, by decide⟩

/-- Witness for C2 at the concretely accepted document. -/
theorem C2_accepted_plan_day_shape_witness : dupDay.meals.length = 3 :=
  (C2_accepted_plan_day_shape dupMealDayDoc dupMealDayParsed rfl dupDay
    (List.mem_cons_self dupDay [])).1

/-- C9 (amended): the validator fails with the not-JSON condition exactly
when the text is non-empty, not whitespace-only, and does not parse as
JSON (empty or whitespace-only text fails with the empty-response
condition instead); a schema failure carries at most the first 5
violations; and an accepted document is exactly the fully validated parse
of the whole text — no partial acceptance. -/
theorem C9_validator_failure_modes (jsonLoads : String → Option PyVal) (content : String) :
    ((content.isEmpty || (pyStrip content).isEmpty) = true →
      parse_and_validate_plan_json jsonLoads content = ValidateResult.errEmptyResponse)
    ∧ (parse_and_validate_plan_json jsonLoads content = ValidateResult.errNotJson ↔
        (content.isEmpty || (pyStrip content).isEmpty) = false
          ∧ jsonLoads content = Option.none)
    ∧ (∀ es, parse_and_validate_plan_json jsonLoads content = ValidateResult.errSchemaInvalid es →
        es.length ≤ 5)
    ∧ (∀ d, parse_and_validate_plan_json jsonLoads content = ValidateResult.ok d →
        ∃ raw, jsonLoads content = some raw ∧ model_validate raw = Except.ok d) := by
  by_cases hg : (content.isEmpty || (pyStrip content).isEmpty) = true
  · have hr : parse_and_validate_plan_json jsonLoads content = ValidateResult.errEmptyResponse := by
      simp [parse_and_validate_plan_json, hg]
    rw [hr]
    refine ⟨fun _ => rfl, ?_, ?_, ?_⟩
    · constructor
      · intro h
        exact absurd h (by simp)
      · rintro ⟨hf, -⟩
        rw [hg] at hf
        exact Bool.noConfusion hf
    · intro es h
      exact absurd h (by simp)
    · intro d h
      exact absurd h (by simp)
  · have hgf : (content.isEmpty || (pyStrip content).isEmpty) = false := by
      cases hb : (content.isEmpty || (pyStrip content).isEmpty)
      · rfl
      · exact absurd hb hg
    rcases hj : jsonLoads content with _ | raw
    · have hr : parse_and_validate_plan_json jsonLoads content = ValidateResult.errNotJson := by
        simp [parse_and_validate_plan_json, hgf, hj]
      rw [hr]
      refine ⟨?_, ?_, ?_, ?_⟩
      · intro hh
        rw [hgf] at hh
        exact Bool.noConfusion hh
      · simp [hgf]
      · intro es h
        exact absurd h (by simp)
      · intro d h
        exact absurd h (by simp)
    · cases hm : model_validate raw with
      | error errs =>
        have hr : parse_and_validate_plan_json jsonLoads content =
            ValidateResult.errSchemaInvalid (errs.take 5) := by
          simp [parse_and_validate_plan_json, hgf, hj, hm]
        rw [hr]
        refine ⟨?_, ?_, ?_, ?_⟩
        · intro hh
          rw [hgf] at hh
          exact Bool.noConfusion hh
        · constructor
          · intro h
            exact absurd h (by simp)
          · rintro ⟨-, hnone⟩
            exact Option.noConfusion hnone
        · intro es h
          have he : errs.take 5 = es := by simpa using h
          rw [← he]
          exact List.length_take_le 5 errs
        · intro d h
          exact absurd h (by simp)
      | ok doc =>
        have hr : parse_and_validate_plan_json jsonLoads content = ValidateResult.ok doc := by
          simp [parse_and_validate_plan_json, hgf, hj, hm]
        rw [hr]
        refine ⟨?_, ?_, ?_, ?_⟩
        · intro hh
          rw [hgf] at hh
          exact Bool.noConfusion hh
        · constructor
          · intro h
            exact absurd h (by simp)
          · rintro ⟨-, hnone⟩
            exact Option.noConfusion hnone
        · intro es h
          exact absurd h (by simp)
        · intro d h
          obtain rfl : doc = d := by simpa using h
          exact ⟨raw, rfl, hm⟩

/-- C9 counterexample: the empty text does not parse as JSON (json.loads
raises on it), yet the validator reports the empty-response condition,
not the not-JSON condition. -/
theorem C9_counterexample_empty_text :
    parse_and_validate_plan_json (fun _ => Option.none) "" = ValidateResult.errEmptyResponse
    ∧ ValidateResult.errEmptyResponse ≠ ValidateResult.errNotJson
    ∧ (fun _ : String => (Option.none : Option PyVal)) "" = Option.none :=
  ⟨rfl, by decide, rfl⟩

/-- Witness for C9 on text that is non-empty but unparseable: the
not-JSON condition fires. -/
theorem C9_validator_failure_modes_witness :
    parse_and_validate_plan_json (fun _ => Option.none) "x" = ValidateResult.errNotJson :=
  (C9_validator_failure_modes (fun _ => Option.none) "x").2.1.mpr ⟨rfl, rfl⟩

/-! ## Enrichment compaction and retrieval (`app/retrieval.py`) -/

/-- The whitelisted nutrition fields kept by `_compact_nutrition`
(retrieval.py lines 69-82), in source order. -/
def nutritionFields : List String :=
  ["serving_count", "serving_size_text", "serving_size_grams", "calories",
   "protein_g", "total_fat_g", "total_carbohydrate_g", "dietary_fiber_g",
   "total_sugars_g", "sodium_mg", "cholesterol_mg", "saturated_fat_g"]

/-- `_compact_nutrition` (retrieval.py lines 44-82): falsy input or a
failed decode or a missing object-valued `parsed` yields None; otherwise
the whitelisted projection of `parsed`. Total — never raises. -/
def _compact_nutrition (jsonLoads : String → Option PyVal) (nutrition_json : PyVal) :
    Option PyVal :=
  if nutrition_json.truthy = false then Option.none
  else
    let decoded : Option PyVal :=
      match nutrition_json with
      | .pstr s => jsonLoads s
      | v => some v
    match decoded with
    | Option.none => Option.none
    | some v =>
      match v with
      | .pdict kvs =>
        match pyGet kvs "parsed" with
        | .pdict pkvs => some (.pdict (nutritionFields.map (fun f => (f, pyGet pkvs f))))
        | _ => Option.none
      | _ => Option.none

/-- `_compact_ingredients` (retrieval.py lines 84-122): same prelude as
nutrition; on success keeps a raw-text fallback, up to 30 ingredient
names, and the count. -/
def _compact_ingredients (jsonLoads : String → Option PyVal) (ingredients_json : PyVal) :
    Option PyVal :=
  if ingredients_json.truthy = false then Option.none
  else
    let decoded : Option PyVal :=
      match ingredients_json with
      | .pstr s => jsonLoads s
      | v => some v
    match decoded with
    | Option.none => Option.none
    | some v =>
      match v with
      | .pdict kvs =>
        match pyGet kvs "parsed" with
        | .pdict pkvs =>
          let raw_text :=
            if (pyGet pkvs "ingredients_raw").truthy then pyGet pkvs "ingredients_raw"
            else pyGet kvs "raw"
          let names : List PyVal :=
            match pyGet pkvs "ingredients_list" with
            | .plist xs =>
              (xs.take 30).filterMap (fun x =>
                match x with
                | .pdict xkvs =>
                  if (pyGet xkvs "name").truthy then some (.pstr (pyStr (pyGet xkvs "name")))
                  else Option.none
                | _ => Option.none)
            | _ => []
          some (.pdict [("ingredients_raw", raw_text),
                        ("ingredients_names", .plist names),
                        ("ingredients_count", pyGet pkvs "ingredients_count")])
        | _ => Option.none
      | _ => Option.none

/-- An enriched retrieval candidate (retrieval.py lines 169-184). -/
structure Candidate where
  id : Int
  name : String
  price : PyVal
  unit_size : PyVal
  category_path : PyVal
  image_url : PyVal
  nutrition : Option PyVal
  ingredients : Option PyVal

/-- The join of store items with their item embeddings
(`items INNER JOIN item_embeddings ... WHERE store ILIKE %s`). -/
def embeddedStoreItems (db : DB) (store : String) : List (Item × Vec) :=
  db.items.filterMap (fun i =>
    match tblGet db.item_embeddings i.id with
    | some v => if storeMatch store i.store then some (i, v) else Option.none
    | Option.none => Option.none)

/-- `ORDER BY ie.embedding <=> %s::vector LIMIT %s`: the joined rows
sorted by ascending distance to the query vector, truncated to `k`. -/
def retrievalRanked (dist : Vec → Vec → Rat) (db : DB) (store : String)
    (query_vec : Vec) (k : Nat) : List (Item × Vec) :=
  (List.insertionSort (fun a b : Item × Vec => dist a.2 query_vec ≤ dist b.2 query_vec)
    (embeddedStoreItems db store)).take k

/-- Enrichment merge for one retrieved item (retrieval.py lines 161-184):
the nutrition/ingredients rows are looked up per id (a missing row passes
Python None into the compactors). -/
def candidateOf (jsonLoads : String → Option PyVal) (db : DB) (it : Item) : Candidate :=
  { id := it.id
    name := it.name
    price := it.price
    unit_size := it.unit_size
    category_path := it.category_path
    image_url := it.image_url
    nutrition := _compact_nutrition jsonLoads ((tblGet db.item_nutrition it.id).getD .none)
    ingredients := _compact_ingredients jsonLoads ((tblGet db.item_ingredients it.id).getD .none) }

/-- `retrieve_candidates` (retrieval.py lines 124-186): rank and truncate,
return `[]` when nothing matched, else merge enrichment per candidate. -/
def retrieve_candidates (dist : Vec → Vec → Rat) (jsonLoads : String → Option PyVal)
    (db : DB) (store : String) (query_vec : Vec) (k : Nat) : List Candidate :=
  let items := retrievalRanked dist db store query_vec k
  if items.isEmpty then []
  else items.map (fun p => candidateOf jsonLoads db p.1)

/-- C6: retrieval returns at most k candidates, in non-decreasing order of
distance to the query vector (the candidates are the enrichment of the
ranked rows, in ranked order), and a store with no embedded items yields
the empty list, not an error. -/
theorem C6_retrieval_bound_order_empty (dist : Vec → Vec → Rat)
    (jsonLoads : String → Option PyVal) (db : DB) (store : String)
    (query_vec : Vec) (k : Nat) :
    (retrieve_candidates dist jsonLoads db store query_vec k).length ≤ k
    ∧ retrieve_candidates dist jsonLoads db store query_vec k =
        (retrievalRanked dist db store query_vec k).map (fun p => candidateOf jsonLoads db p.1)
    ∧ List.Sorted (fun a b : Item × Vec => dist a.2 query_vec ≤ dist b.2 query_vec)
        (retrievalRanked dist db store query_vec k)
    ∧ (embeddedStoreItems db store = [] →
        retrieve_candidates dist jsonLoads db store query_vec k = []) := by
  have hmap : retrieve_candidates dist jsonLoads db store query_vec k =
      (retrievalRanked dist db store query_vec k).map (fun p => candidateOf jsonLoads db p.1) := by
    unfold retrieve_candidates
    by_cases he : (retrievalRanked dist db store query_vec k).isEmpty = true
    · rw [if_pos he, List.isEmpty_iff.mp he]
      rfl
    · rw [if_neg he]
  refine ⟨?_, hmap, ?_, ?_⟩
  · rw [hmap, List.length_map]
    exact le_trans (le_of_eq rfl) (by
      unfold retrievalRanked
      exact List.length_take_le k _)
  · haveI : IsTotal (Item × Vec) (fun a b => dist a.2 query_vec ≤ dist b.2 query_vec) :=
      ⟨fun a b => le_total _ _⟩
    haveI : IsTrans (Item × Vec) (fun a b => dist a.2 query_vec ≤ dist b.2 query_vec) :=
      ⟨fun _ _ _ hab hbc => le_trans hab hbc⟩
    have hs := List.sorted_insertionSort
      (fun a b : Item × Vec => dist a.2 query_vec ≤ dist b.2 query_vec)
      (embeddedStoreItems db store)
    exact List.Pairwise.sublist (List.take_sublist k _) hs
  · intro hemp
    rw [hmap]
    unfold retrievalRanked
    rw [hemp]
    simp

/-- Witness for C6: a store with no items retrieves the empty list. -/
theorem C6_retrieval_bound_order_empty_witness :
    retrieve_candidates (fun _ _ => 0) (fun _ => Option.none)
      ⟨[], [], [], [], [], []⟩ "S" [] 5 = [] :=
  (C6_retrieval_bound_order_empty (fun _ _ => 0) (fun _ => Option.none)
    ⟨[], [], [], [], [], []⟩ "S" [] 5).2.2.2 rfl

/-- C3 (amended): each returned candidate's nutrition / ingredients field
is exactly the compaction of its stored enrichment row; a missing row
yields null, and a present row yields a non-null field when its value is
an object with an object-valued `parsed` substructure, but null — not an
error — when the stored value is empty, undecodable, or lacks an object
`parsed`. -/
theorem C3_candidate_enrichment (dist : Vec → Vec → Rat)
    (jsonLoads : String → Option PyVal) (db : DB) (store : String)
    (query_vec : Vec) (k : Nat) (c : Candidate)
    (hc : c ∈ retrieve_candidates dist jsonLoads db store query_vec k) :
    c.nutrition = _compact_nutrition jsonLoads ((tblGet db.item_nutrition c.id).getD .none)
    ∧ c.ingredients =
        _compact_ingredients jsonLoads ((tblGet db.item_ingredients c.id).getD .none)
    ∧ (tblGet db.item_nutrition c.id = Option.none → c.nutrition = Option.none)
    ∧ (tblGet db.item_ingredients c.id = Option.none → c.ingredients = Option.none)
    ∧ (∀ kvs pkvs, tblGet db.item_nutrition c.id = some (.pdict kvs) →
        dictGet kvs "parsed" = some (.pdict pkvs) → c.nutrition.isSome = true)
    ∧ (∀ kvs pkvs, tblGet db.item_ingredients c.id = some (.pdict kvs) →
        dictGet kvs "parsed" = some (.pdict pkvs) → c.ingredients.isSome = true) := by
  have hmem : ∃ p ∈ retrievalRanked dist db store query_vec k,
      c = candidateOf jsonLoads db p.1 := by
    unfold retrieve_candidates at hc
    by_cases he : (retrievalRanked dist db store query_vec k).isEmpty = true
    · rw [if_pos he] at hc
      exact absurd hc (List.not_mem_nil c)
    · rw [if_neg he] at hc
      obtain ⟨p, hp, hpc⟩ := List.mem_map.mp hc
      exact ⟨p, hp, hpc.symm⟩
  obtain ⟨p, -, rfl⟩ := hmem
  have hid : (candidateOf jsonLoads db p.1).id = p.1.id := rfl
  refine ⟨rfl, rfl, ?_, ?_, ?_, ?_⟩
  · intro hnone
    show _compact_nutrition jsonLoads ((tblGet db.item_nutrition p.1.id).getD .none)
      = Option.none
    rw [hid] at hnone
    rw [hnone]
    rfl
  · intro hnone
    show _compact_ingredients jsonLoads ((tblGet db.item_ingredients p.1.id).getD .none)
      = Option.none
    rw [hid] at hnone
    rw [hnone]
    rfl
  · intro kvs pkvs h1 h2
    show (_compact_nutrition jsonLoads ((tblGet db.item_nutrition p.1.id).getD .none)).isSome
      = true
    rw [hid] at h1
    rw [h1]
    have hne : kvs ≠ [] := by
      intro hnil
      rw [hnil] at h2
      simp [dictGet] at h2
    have htr : (PyVal.pdict kvs).truthy = true := by
      cases hk : kvs.isEmpty
      · simp [PyVal.truthy, hk]
      · exact absurd (List.isEmpty_iff.mp hk) hne
    simp [_compact_nutrition, htr, pyGet, h2]
  · intro kvs pkvs h1 h2
    show (_compact_ingredients jsonLoads ((tblGet db.item_ingredients p.1.id).getD .none)).isSome
      = true
    rw [hid] at h1
    rw [h1]
    have hne : kvs ≠ [] := by
      intro hnil
      rw [hnil] at h2
      simp [dictGet] at h2
    have htr : (PyVal.pdict kvs).truthy = true := by
      cases hk : kvs.isEmpty
      · simp [PyVal.truthy, hk]
      · exact absurd (List.isEmpty_iff.mp hk) hne
    simp [_compact_ingredients, htr, pyGet, h2]

/-- A store item used in concrete retrieval runs. -/
def itemOne : Item := ⟨1, "S", "apple", .none, .none, .none, .none, .none⟩

/-- A database whose single item has an embedding and a nutrition row whose
stored value is a JSON object without a `parsed` substructure. -/
def dbNoParsed : DB :=
  ⟨[itemOne], [(1, [0])], [(1, .pdict [("a", .pint 1)])], [], [], []⟩

/-- C3 counterexample: the nutrition row for item 1 exists, the item is
retrieved, yet its compacted nutrition field is null because the stored
value has no object-valued `parsed` — so a present source row does not
guarantee a non-null compacted field. (The stored value is an object, so
the json.loads parameter is never consulted on this path.) -/
theorem C3_counterexample_present_row_null_field :
    tblGet dbNoParsed.item_nutrition 1 = some (PyVal.pdict [("a", PyVal.pint 1)])
    ∧ (retrieve_candidates (fun _ _ => 0) (fun _ => Option.none)
        dbNoParsed "S" [0] 5).map Candidate.id = [1]
    ∧ (retrieve_candidates (fun _ _ => 0) (fun _ => Option.none)
        dbNoParsed "S" [0] 5).map Candidate.nutrition = [Option.none] :=
  ⟨rfl, rfl, rfl⟩

/-- An item with a well-formed parsed nutrition row. -/
def itemTwo : Item := ⟨2, "S", "milk", .none, .none, .none, .none, .none⟩

/-- A database whose single item has a nutrition row with a `parsed`
object. -/
def dbParsed : DB :=
  ⟨[itemTwo], [(2, [0])],
   [(2, .pdict [("parsed", .pdict [("calories", .pint 100)])])], [], [], []⟩

/-- Witness for C3 at a retrieved candidate with a well-formed nutrition
row: the compacted field is non-null. -/
theorem C3_candidate_enrichment_witness :
    (candidateOf (fun _ => Option.none) dbParsed itemTwo).nutrition.isSome = true := by
  have hc : candidateOf (fun _ => Option.none) dbParsed itemTwo ∈
      retrieve_candidates (fun _ _ => 0) (fun _ => Option.none) dbParsed "S" [0] 5 := by
    have hr : retrieve_candidates (fun _ _ => 0) (fun _ => Option.none) dbParsed "S" [0] 5 =
        [candidateOf (fun _ => Option.none) dbParsed itemTwo] := rfl
    rw [hr]
    exact List.mem_cons_self _ _
  exact (C3_candidate_enrichment (fun _ _ => 0) (fun _ => Option.none) dbParsed "S" [0] 5
    _ hc).2.2.2.2.1 [("parsed", .pdict [("calories", .pint 100)])]
    [("calories", .pint 100)] rfl rfl

/-! ## Embedding backfill (`app/embedding.py`, `app/routes/embed_routes.py`)

The document builders are embedded from `embedding.py`; the f-string
rendering of non-string payloads uses `pyStr`, and `json.dumps` of the
tags payload is likewise rendered through `pyStr` (no claim depends on a
rendering). A Python path that raises an uncaught exception is
`Option.none`; paths where CPython catches a TypeError mid-build and
degrades are conservatively also modelled as `Option.none` — every
theorem below only concerns invocations that do return. -/

/-- `item_doc` (embedding.py lines 11-19). -/
def item_doc (i : Item) : String :=
  "name: " ++ i.name
    ++ "\nstore: " ++ i.store
    ++ "\ncategory: " ++ pyStr i.category_path
    ++ "\nunit: " ++ pyStr i.unit_size
    ++ "\nprice: " ++ pyStr i.price
    ++ "\ntags: " ++ (match i.tags_json with | .none => "" | v => pyStr v)

/-- One conditionally included line of a document. -/
def gLine (gate : Bool) (line : String) : List String :=
  if gate then [line] else []

/-- The per-field lines of `nutrition_doc` (embedding.py lines 39-74):
the first three fields are truthiness-gated, the rest are gated on
`is not None`. -/
def nutritionDocLines (pkvs : List (String × PyVal)) : List String :=
  gLine (pyGet pkvs "serving_count").truthy
      ("  Serves: " ++ pyStr (pyGet pkvs "serving_count"))
    ++ gLine (pyGet pkvs "serving_size_text").truthy
      ("  Serving size: " ++ pyStr (pyGet pkvs "serving_size_text"))
    ++ gLine (pyGet pkvs "serving_size_grams").truthy
      ("  Serving size (grams): " ++ pyStr (pyGet pkvs "serving_size_grams"))
    ++ gLine (pyGet pkvs "calories").isNotNone
      ("  Calories: " ++ pyStr (pyGet pkvs "calories") ++ " per serving")
    ++ gLine (pyGet pkvs "total_fat_g").isNotNone
      ("  Total fat: " ++ pyStr (pyGet pkvs "total_fat_g") ++ "g")
    ++ gLine (pyGet pkvs "saturated_fat_g").isNotNone
      ("  Saturated fat: " ++ pyStr (pyGet pkvs "saturated_fat_g") ++ "g")
    ++ gLine (pyGet pkvs "trans_fat_g").isNotNone
      ("  Trans fat: " ++ pyStr (pyGet pkvs "trans_fat_g") ++ "g")
    ++ gLine (pyGet pkvs "cholesterol_mg").isNotNone
      ("  Cholesterol: " ++ pyStr (pyGet pkvs "cholesterol_mg") ++ "mg")
    ++ gLine (pyGet pkvs "sodium_mg").isNotNone
      ("  Sodium: " ++ pyStr (pyGet pkvs "sodium_mg") ++ "mg")
    ++ gLine (pyGet pkvs "total_carbohydrate_g").isNotNone
      ("  Total carbohydrate: " ++ pyStr (pyGet pkvs "total_carbohydrate_g") ++ "g")
    ++ gLine (pyGet pkvs "dietary_fiber_g").isNotNone
      ("  Dietary fiber: " ++ pyStr (pyGet pkvs "dietary_fiber_g") ++ "g")
    ++ gLine (pyGet pkvs "total_sugars_g").isNotNone
      ("  Total sugars: " ++ pyStr (pyGet pkvs "total_sugars_g") ++ "g")
    ++ gLine (pyGet pkvs "added_sugars_g").isNotNone
      ("  Added sugars: " ++ pyStr (pyGet pkvs "added_sugars_g") ++ "g")
    ++ gLine (pyGet pkvs "protein_g").isNotNone
      ("  Protein: " ++ pyStr (pyGet pkvs "protein_g") ++ "g")
    ++ gLine (pyGet pkvs "vitamin_d_mcg").isNotNone
      ("  Vitamin D: " ++ pyStr (pyGet pkvs "vitamin_d_mcg") ++ "mcg")
    ++ gLine (pyGet pkvs "calcium_mg").isNotNone
      ("  Calcium: " ++ pyStr (pyGet pkvs "calcium_mg") ++ "mg")
    ++ gLine (pyGet pkvs "iron_mg").isNotNone
      ("  Iron: " ++ pyStr (pyGet pkvs "iron_mg") ++ "mg")
    ++ gLine (pyGet pkvs "potassium_mg").isNotNone
      ("  Potassium: " ++ pyStr (pyGet pkvs "potassium_mg") ++ "mg")

/-- The raw-text fallback of the document builders: a prefixed 1000-char
cap of the raw text when it is non-empty, else the empty document. -/
def rawDocFallback (tag : String) (s : String) : String :=
  if s.isEmpty then "" else tag ++ s.take 1000

/-- `nutrition_doc` (embedding.py lines 21-89). `Option.none` models the
uncaught AttributeError raised when a truthy `parsed` is not an object. -/
def nutrition_doc (jsonLoads : String → Option PyVal) (v : PyVal) : Option String :=
  match v with
  | .pstr s =>
    match jsonLoads s with
    | Option.none => some (rawDocFallback "Nutrition: " s)
    | some j =>
      match j with
      | .pdict kvs =>
        match dictGet kvs "parsed" with
        | some parsed =>
          if parsed.truthy then
            match parsed with
            | .pdict pkvs =>
              let parts := "Nutrition Facts:" :: nutritionDocLines pkvs
              let parts2 :=
                if parts.length ≤ 1 then
                  (if (pyGet kvs "raw").truthy then
                      ["Nutrition: " ++ (pyStr (pyGet kvs "raw")).take 1000]
                    else parts)
                else parts
              some (String.intercalate "\n" parts2)
            | _ => Option.none
          else
            (if (pyGet kvs "raw").truthy then
                some ("Nutrition: " ++ (pyStr (pyGet kvs "raw")).take 1000)
              else some "")
        | Option.none => some (rawDocFallback "Nutrition: " s)
      | _ => some (rawDocFallback "Nutrition: " s)
  | _ => some ""

/-- Sequencing of optional results: `Option.none` once any element is
`Option.none`. -/
def optSequence {α : Type} : List (Option α) → Option (List α)
  | [] => some []
  | x :: xs =>
    match x, optSequence xs with
    | some y, some ys => some (y :: ys)
    | _, _ => Option.none

/-- A JSON list all of whose elements are objects; anything else is a
Python iteration/attribute error in the builders. -/
def asDictList (v : PyVal) : Option (List (List (String × PyVal))) :=
  match v with
  | .plist xs =>
    optSequence (xs.map (fun x =>
      match x with
      | .pdict d => some d
      | _ => Option.none))
  | _ => Option.none

/-- `d.get(k, '')`. -/
def getStrDefault (d : List (String × PyVal)) (k : String) : PyVal :=
  match dictGet d k with
  | some w => w
  | Option.none => .pstr ""

/-- All values must be strings for `", ".join` to succeed. -/
def allPstr (vs : List PyVal) : Option (List String) :=
  optSequence (vs.map (fun v =>
    match v with
    | .pstr s => some s
    | _ => Option.none))

/-- `ing.get('is_sub_ingredient', False)` truthiness. -/
def isSubIngredient (d : List (String × PyVal)) : Bool :=
  (match dictGet d "is_sub_ingredient" with
   | some w => w
   | Option.none => .pbool false).truthy

/-- The main/sub ingredient lines of `ingredients_doc` (embedding.py
lines 109-130). -/
def ingredientsMainSub (pkvs : List (String × PyVal)) : Option (List String) :=
  let lst := pyGet pkvs "ingredients_list"
  if lst.truthy then
    match asDictList lst with
    | Option.none => Option.none
    | some ds =>
      let mains := ds.filter (fun d => isSubIngredient d = false)
      let mainVals := mains.map (fun d => getStrDefault d "name")
      match allPstr mainVals with
      | Option.none => Option.none
      | some mstrs =>
        let mainPart :=
          if mainVals.isEmpty then []
          else ["  Main ingredients: " ++ String.intercalate ", " mstrs]
        let subParts := (ds.filter (fun d => isSubIngredient d)).filterMap (fun d =>
          let par := getStrDefault d "parent"
          let nm := getStrDefault d "name"
          if par.truthy && nm.truthy then
            some ("  " ++ pyStr par ++ " contains: " ++ pyStr nm)
          else Option.none)
        some (mainPart ++ subParts)
  else some []

/-- The contains-less-than lines of `ingredients_doc` (embedding.py
lines 132-140). -/
def ingredientsCltLines (pkvs : List (String × PyVal)) : Option (List String) :=
  let clt := pyGet pkvs "contains_less_than"
  if clt.truthy then
    match asDictList clt with
    | Option.none => Option.none
    | some cts =>
      let per := cts.map (fun ct =>
        let percentage :=
          match dictGet ct "percentage" with
          | some w => w
          | Option.none => .pint 0
        let ingl :=
          match dictGet ct "ingredients" with
          | some w => w
          | Option.none => .plist []
        match asDictList ingl with
        | Option.none => Option.none
        | some ings =>
          let named := ings.filter (fun d => (pyGet d "name").truthy)
          match allPstr (named.map (fun d => getStrDefault d "name")) with
          | Option.none => Option.none
          | some nstrs =>
            some (if nstrs.isEmpty then ([] : List String)
              else ["  Contains " ++ pyStr percentage ++ "% or less of: "
                ++ String.intercalate ", " nstrs]))
      match optSequence per with
      | Option.none => Option.none
      | some parts => some parts.flatten
  else some []

/-- `ingredients_doc` (embedding.py lines 91-156). -/
def ingredients_doc (jsonLoads : String → Option PyVal) (v : PyVal) : Option String :=
  match v with
  | .pstr s =>
    match jsonLoads s with
    | Option.none => some (rawDocFallback "Ingredients: " s)
    | some j =>
      match j with
      | .pdict kvs =>
        match dictGet kvs "parsed" with
        | some parsed =>
          if parsed.truthy then
            match parsed with
            | .pdict pkvs =>
              match ingredientsMainSub pkvs, ingredientsCltLines pkvs with
              | some msp, some cp =>
                let parts := "Ingredients:" :: (msp ++ cp)
                let parts2 :=
                  if parts.length ≤ 1 then
                    (if (pyGet kvs "raw").truthy then
                        ["Ingredients: " ++ (pyStr (pyGet kvs "raw")).take 1000]
                      else parts)
                  else parts
                some (String.intercalate "\n" parts2)
              | _, _ => Option.none
            | _ => Option.none
          else
            -- unlike nutrition_doc, the raw fallback sits inside `if parsed:`
            -- (embedding.py line 143), so a falsy `parsed` yields the empty
            -- document with no fallback
            some ""
        | Option.none => some (rawDocFallback "Ingredients: " s)
      | _ => some (rawDocFallback "Ingredients: " s)
  | _ => some ""

/-- The store filter of the backfill selection queries: optional,
case-insensitive. -/
def storeGate (store : Option String) (itemStore : String) : Bool :=
  match store with
  | some s => storeMatch s itemStore
  | Option.none => true

/-- `fetch_items_missing_embeddings` (retrieval.py lines 6-27): items with
no embedding row, optionally filtered by store, ordered by id, bounded by
`limit`. -/
def fetch_items_missing_embeddings (db : DB) (store : Option String) (limit : Nat) :
    List Item :=
  (List.insertionSort (fun a b : Item => a.id ≤ b.id)
    (db.items.filter (fun i =>
      storeGate store i.store && (tblGet db.item_embeddings i.id).isNone))).take limit

/-- `INSERT ... ON CONFLICT (item_id) DO UPDATE`: replace the row with
this key, or append a fresh row. -/
def upsertEmb (tbl : List (Int × Vec)) (key : Int) (v : Vec) : List (Int × Vec) :=
  match tbl with
  | [] => [(key, v)]
  | p :: t => if p.1 = key then (key, v) :: t else p :: upsertEmb t key v

/-- `upsert_item_embeddings` (retrieval.py lines 29-42): upsert one row
per (row, vector) pair, counting the writes. -/
def upsert_item_embeddings (db : DB) (rows : List Item) (vectors : List Vec) : DB × Nat :=
  let pairs := rows.zip vectors
  ({ db with item_embeddings :=
      pairs.foldl (fun t rv => upsertEmb t rv.1.id rv.2) db.item_embeddings },
   pairs.length)

/-- The `{updated, skipped}` response of the backfill routes. -/
structure BackfillResponse where
  updated : Nat
  skipped : Nat
deriving DecidableEq, Repr

/-- `POST /embed/backfill/items` (embed_routes.py lines 24-36). -/
def backfill (embed : List String → List Vec) (db : DB) (store : Option String)
    (limit : Nat) : DB × BackfillResponse :=
  let rows := fetch_items_missing_embeddings db store limit
  if rows.isEmpty then (db, ⟨0, 0⟩)
  else
    let texts := rows.map item_doc
    let vectors := embed texts
    let r := upsert_item_embeddings db rows vectors
    (r.1, ⟨r.2, 0⟩)

/-- `x IS NOT NULL AND x != ''` on the enrichment column. -/
def sqlNonEmptyText : PyVal → Bool
  | .none => false
  | .pstr s => !(s == "")
  | _ => true

/-- `fetch_nutrition_missing_embeddings` (retrieval.py lines 198-227):
items joined with a usable nutrition row and no nutrition embedding. -/
def fetch_nutrition_missing_embeddings (db : DB) (store : Option String) (limit : Nat) :
    List (Int × PyVal) :=
  (List.insertionSort (fun a b : Int × PyVal => a.1 ≤ b.1)
    (db.items.filterMap (fun i =>
      match tblGet db.item_nutrition i.id with
      | some nv =>
        if storeGate store i.store && sqlNonEmptyText nv
            && (tblGet db.item_nutrition_embeddings i.id).isNone
        then some (i.id, nv) else Option.none
      | Option.none => Option.none))).take limit

/-- `fetch_ingredients_missing_embeddings` (retrieval.py lines 229-258). -/
def fetch_ingredients_missing_embeddings (db : DB) (store : Option String) (limit : Nat) :
    List (Int × PyVal) :=
  (List.insertionSort (fun a b : Int × PyVal => a.1 ≤ b.1)
    (db.items.filterMap (fun i =>
      match tblGet db.item_ingredients i.id with
      | some nv =>
        if storeGate store i.store && sqlNonEmptyText nv
            && (tblGet db.item_ingredients_embeddings i.id).isNone
        then some (i.id, nv) else Option.none
      | Option.none => Option.none))).take limit

/-- `upsert_nutrition_embeddings` (retrieval.py lines 260-274). -/
def upsert_nutrition_embeddings (db : DB) (rows : List (Int × PyVal)) (vectors : List Vec) :
    DB × Nat :=
  let pairs := rows.zip vectors
  ({ db with item_nutrition_embeddings :=
      pairs.foldl (fun t rv => upsertEmb t rv.1.1 rv.2) db.item_nutrition_embeddings },
   pairs.length)

/-- `upsert_ingredients_embeddings` (retrieval.py lines 276-290). -/
def upsert_ingredients_embeddings (db : DB) (rows : List (Int × PyVal)) (vectors : List Vec) :
    DB × Nat :=
  let pairs := rows.zip vectors
  ({ db with item_ingredients_embeddings :=
      pairs.foldl (fun t rv => upsertEmb t rv.1.1 rv.2) db.item_ingredients_embeddings },
   pairs.length)

/-- `POST /embed/backfill/nutrition` (embed_routes.py lines 38-50);
`Option.none` models an uncaught document-builder exception. -/
def backfill_nutrition (jsonLoads : String → Option PyVal) (embed : List String → List Vec)
    (db : DB) (store : Option String) (limit : Nat) : Option (DB × BackfillResponse) :=
  let rows := fetch_nutrition_missing_embeddings db store limit
  if rows.isEmpty then some (db, ⟨0, 0⟩)
  else
    match optSequence (rows.map (fun r => nutrition_doc jsonLoads r.2)) with
    | Option.none => Option.none
    | some texts =>
      let vectors := embed texts
      let r := upsert_nutrition_embeddings db rows vectors
      some (r.1, ⟨r.2, 0⟩)

/-- `POST /embed/backfill/ingredients` (embed_routes.py lines 52-64). -/
def backfill_ingredients (jsonLoads : String → Option PyVal) (embed : List String → List Vec)
    (db : DB) (store : Option String) (limit : Nat) : Option (DB × BackfillResponse) :=
  let rows := fetch_ingredients_missing_embeddings db store limit
  if rows.isEmpty then some (db, ⟨0, 0⟩)
  else
    match optSequence (rows.map (fun r => ingredients_doc jsonLoads r.2)) with
    | Option.none => Option.none
    | some texts =>
      let vectors := embed texts
      let r := upsert_ingredients_embeddings db rows vectors
      some (r.1, ⟨r.2, 0⟩)

/-- C4 (amended): no backfill invocation ever drops a selected row:
`skipped` is always 0 in every returned response, and `updated` counts
exactly the (row, vector) pairs written. Items with empty source fields
are embedded anyway; for the nutrition/ingredients spaces, empty sources
are excluded by the selection query itself, not skipped after selection. -/
theorem C4_backfill_skipped_always_zero (embed : List String → List Vec) (db : DB)
    (store : Option String) (limit : Nat) :
    ((backfill embed db store limit).2.skipped = 0
      ∧ (backfill embed db store limit).2.updated =
          ((fetch_items_missing_embeddings db store limit).zip
            (embed ((fetch_items_missing_embeddings db store limit).map item_doc))).length)
    ∧ (∀ jl r, backfill_nutrition jl embed db store limit = some r → r.2.skipped = 0)
    ∧ (∀ jl r, backfill_ingredients jl embed db store limit = some r → r.2.skipped = 0) := by
  refine ⟨?_, ?_, ?_⟩
  · simp only [backfill]
    by_cases hrows : (fetch_items_missing_embeddings db store limit).isEmpty = true
    · rw [if_pos hrows]
      refine ⟨rfl, ?_⟩
      rw [List.isEmpty_iff.mp hrows]
      simp
    · rw [if_neg hrows]
      exact ⟨rfl, rfl⟩
  · intro jl r h
    simp only [backfill_nutrition] at h
    by_cases hrows : (fetch_nutrition_missing_embeddings db store limit).isEmpty = true
    · rw [if_pos hrows] at h
      obtain rfl := Option.some.inj h
      rfl
    · rw [if_neg hrows] at h
      rcases hseq : optSequence ((fetch_nutrition_missing_embeddings db store limit).map
          (fun r => nutrition_doc jl r.2)) with _ | texts <;> rw [hseq] at h
      · exact Option.noConfusion h
      · obtain rfl := Option.some.inj h
        rfl
  · intro jl r h
    simp only [backfill_ingredients] at h
    by_cases hrows : (fetch_ingredients_missing_embeddings db store limit).isEmpty = true
    · rw [if_pos hrows] at h
      obtain rfl := Option.some.inj h
      rfl
    · rw [if_neg hrows] at h
      rcases hseq : optSequence ((fetch_ingredients_missing_embeddings db store limit).map
          (fun r => ingredients_doc jl r.2)) with _ | texts <;> rw [hseq] at h
      · exact Option.noConfusion h
      · obtain rfl := Option.some.inj h
        rfl

/-- An item whose source fields are all empty. -/
def emptySourceItem : Item := ⟨1, "", "", .none, .none, .none, .none, .none⟩

/-- A database holding only that item, nothing embedded. -/
def dbEmptySource : DB := ⟨[emptySourceItem], [], [], [], [], []⟩

/-- A deterministic embedding provider stub returning one vector per
text. -/
def embedZero : List String → List Vec := fun ts => ts.map (fun _ => [0])

/-- C4 counterexample: the selected item row has an empty source record,
yet backfill embeds it and reports `updated = 1, skipped = 0` — the row
is neither dropped nor counted in `skipped`. -/
theorem C4_counterexample_empty_source_embedded :
    (backfill embedZero dbEmptySource Option.none 10).2 = ⟨1, 0⟩
    ∧ tblGet (backfill embedZero dbEmptySource Option.none 10).1.item_embeddings 1
        = some [0]
    ∧ item_doc emptySourceItem =
        "name: \nstore: \ncategory: None\nunit: None\nprice: None\ntags: " :=
  ⟨rfl, rfl, rfl⟩

/-- Witness for C4 on a concrete nutrition backfill run. -/
theorem C4_backfill_skipped_always_zero_witness :
    backfill_nutrition (fun _ => Option.none) embedZero dbEmptySource Option.none 10
      = some (dbEmptySource, ⟨0, 0⟩)
    ∧ (⟨0, 0⟩ : BackfillResponse).skipped = 0 :=
  ⟨rfl, (C4_backfill_skipped_always_zero embedZero dbEmptySource Option.none 10).2.1
    (fun _ => Option.none) (dbEmptySource, ⟨0, 0⟩) rfl⟩

/-! ### Upsert lemmas -/

theorem tblGet_upsertEmb (t : List (Int × Vec)) (k : Int) (v : Vec) (j : Int) :
    tblGet (upsertEmb t k v) j = if j = k then some v else tblGet t j := by
  induction t with
  | nil =>
    by_cases hjk : j = k
    · subst hjk
      simp [upsertEmb, tblGet]
    · have hkj : (k == j) = false := beq_eq_false_iff_ne.mpr (Ne.symm hjk)
      simp [upsertEmb, tblGet, hkj, hjk]
  | cons p t ih =>
    simp only [upsertEmb]
    by_cases hpk : p.1 = k
    · rw [if_pos hpk]
      by_cases hjk : j = k
      · subst hjk
        simp [tblGet]
      · have hkj : (k == j) = false := beq_eq_false_iff_ne.mpr (Ne.symm hjk)
        have hpj : (p.1 == j) = false := by rw [hpk]; exact hkj
        simp [tblGet, hkj, hjk, hpj]
    · rw [if_neg hpk]
      by_cases hpj : (p.1 == j) = true
      · have hj : p.1 = j := by simpa using hpj
        have hjk : ¬ j = k := by rw [← hj]; exact hpk
        simp [tblGet, hpj, hjk]
      · have hpjf : (p.1 == j) = false := by simpa using hpj
        have hl : tblGet (p :: upsertEmb t k v) j = tblGet (upsertEmb t k v) j := by
          simp [tblGet, hpjf]
        have hr : tblGet (p :: t) j = tblGet t j := by
          simp [tblGet, hpjf]
        rw [hl, hr, ih]

theorem present_foldl_upsert (pairs : List (Item × Vec)) :
    ∀ (t : List (Int × Vec)) (j : Int),
      (tblGet (pairs.foldl (fun acc rv => upsertEmb acc rv.1.id rv.2) t) j).isSome = true ↔
        (tblGet t j).isSome = true ∨ ∃ rv ∈ pairs, rv.1.id = j := by
  induction pairs with
  | nil => simp
  | cons rv pairs ih =>
    intro t j
    simp only [List.foldl_cons]
    rw [ih]
    constructor
    · rintro (hp | hex)
      · rw [tblGet_upsertEmb] at hp
        by_cases hj : j = rv.1.id
        · exact Or.inr ⟨rv, List.mem_cons_self _ _, hj.symm⟩
        · rw [if_neg hj] at hp
          exact Or.inl hp
      · obtain ⟨rv2, h1, h2⟩ := hex
        exact Or.inr ⟨rv2, List.mem_cons_of_mem _ h1, h2⟩
    · rintro (hp | hex)
      · left
        rw [tblGet_upsertEmb]
        by_cases hj : j = rv.1.id
        · rw [if_pos hj]
          rfl
        · rw [if_neg hj]
          exact hp
      · obtain ⟨rv2, h1, h2⟩ := hex
        rcases List.mem_cons.mp h1 with rfl | h1b
        · left
          rw [tblGet_upsertEmb, if_pos h2.symm]
          rfl
        · right
          exact ⟨rv2, h1b, h2⟩

theorem keys_upsertEmb (t : List (Int × Vec)) (k : Int) (v : Vec) :
    (upsertEmb t k v).map Prod.fst =
      if k ∈ t.map Prod.fst then t.map Prod.fst else t.map Prod.fst ++ [k] := by
  induction t with
  | nil => simp [upsertEmb]
  | cons p t ih =>
    simp only [upsertEmb]
    by_cases hpk : p.1 = k
    · rw [if_pos hpk]
      have hmem : k ∈ (p :: t).map Prod.fst := by
        simp [hpk.symm]
      rw [if_pos hmem]
      simp [hpk]
    · rw [if_neg hpk]
      simp only [List.map_cons, ih]
      by_cases hk : k ∈ t.map Prod.fst
      · have hmem : k ∈ p.1 :: t.map Prod.fst := List.mem_cons_of_mem _ hk
        rw [if_pos hk, if_pos hmem]
      · have hmem : k ∉ p.1 :: t.map Prod.fst := by
          intro hc
          rcases List.mem_cons.mp hc with he | hc2
          · exact hpk he.symm
          · exact hk hc2
        rw [if_neg hk, if_neg hmem]
        rfl

theorem nodupKeys_upsertEmb (t : List (Int × Vec)) (k : Int) (v : Vec)
    (h : (t.map Prod.fst).Nodup) : ((upsertEmb t k v).map Prod.fst).Nodup := by
  rw [keys_upsertEmb]
  by_cases hk : k ∈ t.map Prod.fst
  · rwa [if_pos hk]
  · rw [if_neg hk, List.nodup_append]
    exact ⟨h, List.nodup_singleton k,
      fun a ha hak => hk ((List.mem_singleton.mp hak) ▸ ha)⟩

theorem nodupKeys_foldl_upsert (pairs : List (Item × Vec)) :
    ∀ t : List (Int × Vec), (t.map Prod.fst).Nodup →
      ((pairs.foldl (fun acc rv => upsertEmb acc rv.1.id rv.2) t).map Prod.fst).Nodup := by
  induction pairs with
  | nil =>
    intro t h
    simpa using h
  | cons rv pairs ih =>
    intro t h
    simp only [List.foldl_cons]
    exact ih _ (nodupKeys_upsertEmb t rv.1.id rv.2 h)

/-- C5: the backfill selection only returns rows with no embedding row;
the keyed upsert keeps at most one embedding row per item; and when the
limit covers the unembedded set and the provider returns one vector per
text, running backfill a second time is a no-op: the final per-item
vectors are those of the single run, with no duplicate rows. -/
theorem C5_backfill_idempotent (embed : List String → List Vec) (db : DB)
    (store : Option String) (limit : Nat)
    (hembed : ∀ ts, (embed ts).length = ts.length)
    (hlimit : (db.items.filter (fun i =>
        storeGate store i.store && (tblGet db.item_embeddings i.id).isNone)).length ≤ limit) :
    (∀ r ∈ fetch_items_missing_embeddings db store limit,
        tblGet db.item_embeddings r.id = Option.none)
    ∧ ((db.item_embeddings.map Prod.fst).Nodup →
        (((backfill embed db store limit).1.item_embeddings).map Prod.fst).Nodup)
    ∧ backfill embed (backfill embed db store limit).1 store limit =
        ((backfill embed db store limit).1, ⟨0, 0⟩) := by
  refine ⟨?_, ?_, ?_⟩
  · intro r hr
    have hr2 : r ∈ List.insertionSort (fun a b : Item => a.id ≤ b.id)
        (db.items.filter (fun i =>
          storeGate store i.store && (tblGet db.item_embeddings i.id).isNone)) :=
      List.Sublist.mem hr (List.take_sublist _ _)
    have hr3 := ((List.perm_insertionSort _ _).mem_iff).mp hr2
    have hcond := (List.mem_filter.mp hr3).2
    rw [Bool.and_eq_true] at hcond
    exact Option.isNone_iff_eq_none.mp hcond.2
  · intro h
    simp only [backfill]
    by_cases hrows : (fetch_items_missing_embeddings db store limit).isEmpty = true
    · rw [if_pos hrows]
      exact h
    · rw [if_neg hrows]
      exact nodupKeys_foldl_upsert _ _ h
  · by_cases hrows : (fetch_items_missing_embeddings db store limit).isEmpty = true
    · have hb : backfill embed db store limit = (db, ⟨0, 0⟩) := by
        simp only [backfill]
        rw [if_pos hrows]
      rw [hb]
      show backfill embed db store limit = (db, ⟨0, 0⟩)
      exact hb
    · have hsortlen : (List.insertionSort (fun a b : Item => a.id ≤ b.id)
          (db.items.filter (fun i =>
            storeGate store i.store && (tblGet db.item_embeddings i.id).isNone))).length =
          (db.items.filter (fun i =>
            storeGate store i.store && (tblGet db.item_embeddings i.id).isNone)).length :=
        (List.perm_insertionSort _ _).length_eq
      have hrows_all : fetch_items_missing_embeddings db store limit =
          List.insertionSort (fun a b : Item => a.id ≤ b.id)
            (db.items.filter (fun i =>
              storeGate store i.store && (tblGet db.item_embeddings i.id).isNone)) := by
        unfold fetch_items_missing_embeddings
        exact List.take_of_length_le (by rw [hsortlen]; exact hlimit)
      have hmemrows : ∀ i : Item, i ∈ fetch_items_missing_embeddings db store limit ↔
          i ∈ db.items.filter (fun i =>
            storeGate store i.store && (tblGet db.item_embeddings i.id).isNone) := by
        intro i
        rw [hrows_all, (List.perm_insertionSort _ _).mem_iff]
      have hb2 : (backfill embed db store limit).1 =
          { db with item_embeddings :=
              (List.foldl (fun t rv => upsertEmb t rv.1.id rv.2) db.item_embeddings
                ((fetch_items_missing_embeddings db store limit).zip
                  (embed ((fetch_items_missing_embeddings db store limit).map item_doc)))) } := by
        simp only [backfill]
        rw [if_neg hrows]
        rfl
      have hpres : ∀ j, (tblGet (backfill embed db store limit).1.item_embeddings j).isSome
          = true ↔
          (tblGet db.item_embeddings j).isSome = true
          ∨ ∃ rv ∈ (fetch_items_missing_embeddings db store limit).zip
              (embed ((fetch_items_missing_embeddings db store limit).map item_doc)),
              rv.1.id = j := by
        intro j
        rw [hb2]
        exact present_foldl_upsert _ _ j
      have hcover : ∀ i ∈ db.items.filter (fun i =>
          storeGate store i.store && (tblGet db.item_embeddings i.id).isNone),
          (tblGet (backfill embed db store limit).1.item_embeddings i.id).isSome = true := by
        intro i hi
        apply (hpres i.id).mpr
        right
        have hir : i ∈ fetch_items_missing_embeddings db store limit := (hmemrows i).mpr hi
        have hlenv : (fetch_items_missing_embeddings db store limit).length ≤
            (embed ((fetch_items_missing_embeddings db store limit).map item_doc)).length := by
          rw [hembed, List.length_map]
        have hfst := List.map_fst_zip (fetch_items_missing_embeddings db store limit)
          (embed ((fetch_items_missing_embeddings db store limit).map item_doc)) hlenv
        rw [← hfst] at hir
        obtain ⟨rv, hrv, hrveq⟩ := List.mem_map.mp hir
        exact ⟨rv, hrv, by rw [hrveq]⟩
      have hfetch2 : fetch_items_missing_embeddings (backfill embed db store limit).1
          store limit = [] := by
        unfold fetch_items_missing_embeddings
        have hitems : (backfill embed db store limit).1.items = db.items := by
          rw [hb2]
        rw [hitems]
        have hfempty : db.items.filter (fun i =>
            storeGate store i.store
              && (tblGet (backfill embed db store limit).1.item_embeddings i.id).isNone)
            = [] := by
          rw [List.eq_nil_iff_forall_not_mem]
          intro i hif
          obtain ⟨hmem, hcond⟩ := List.mem_filter.mp hif
          rw [Bool.and_eq_true] at hcond
          obtain ⟨hsg, hnone⟩ := hcond
          rw [Option.isNone_iff_eq_none] at hnone
          by_cases hdbp : (tblGet db.item_embeddings i.id).isSome = true
          · have := (hpres i.id).mpr (Or.inl hdbp)
            rw [hnone] at this
            simp at this
          · have hdn : (tblGet db.item_embeddings i.id).isNone = true := by
              cases ho : tblGet db.item_embeddings i.id
              · rfl
              · exact absurd (by rw [ho]; rfl) hdbp
            have hiF : i ∈ db.items.filter (fun i =>
                storeGate store i.store && (tblGet db.item_embeddings i.id).isNone) :=
              List.mem_filter.mpr ⟨hmem, by rw [Bool.and_eq_true]; exact ⟨hsg, hdn⟩⟩
            have := hcover i hiF
            rw [hnone] at this
            simp at this
        rw [hfempty]
        simp
      have hempty_run : ∀ d : DB, fetch_items_missing_embeddings d store limit = [] →
          backfill embed d store limit = (d, ⟨0, 0⟩) := by
        intro d hd
        simp only [backfill]
        rw [hd]
        rfl
      exact hempty_run _ hfetch2

/-- Witness for C5: backfilling the one-item database twice equals
backfilling it once. -/
theorem C5_backfill_idempotent_witness :
    backfill embedZero (backfill embedZero dbEmptySource Option.none 10).1 Option.none 10 =
      ((backfill embedZero dbEmptySource Option.none 10).1, ⟨0, 0⟩) :=
  (C5_backfill_idempotent embedZero dbEmptySource Option.none 10
    (fun ts => by simp [embedZero]) (by decide)).2.2

/-! ## Generation route (`app/models.py`, `app/routes/generate_routes.py`) -/

/-- The `Preferences` pydantic model (models.py lines 4-7): the declared
fields are `dietaryRestrictions`, `allergies`, `targetCaloriesPerDay`. -/
structure Preferences where
  dietaryRestrictions : Option String
  allergies : Option String
  targetCaloriesPerDay : Option Int

/-- The `GenerateRequest` body (models.py lines 9-13). -/
structure GenerateRequest where
  userId : Int
  store : String
  days : Int
  preferences : Preferences

/-- Python attribute access on a `Preferences` instance: only the three
declared fields exist; any other attribute raises AttributeError
(pydantic models reject unknown attributes, and extra request keys are
ignored, not stored). -/
def Preferences.getAttrVal (p : Preferences) (attr : String) : Option PyVal :=
  if attr == "dietaryRestrictions" then
    some (match p.dietaryRestrictions with | some s => .pstr s | Option.none => .none)
  else if attr == "allergies" then
    some (match p.allergies with | some s => .pstr s | Option.none => .none)
  else if attr == "targetCaloriesPerDay" then
    some (match p.targetCaloriesPerDay with | some n => .pint n | Option.none => .none)
  else Option.none

/-- `x or fallback` rendered into an f-string. -/
def pyOrStr (v : PyVal) (fallback : String) : String :=
  if v.truthy then pyStr v else fallback

/-- The retrieval query text built by `generate` (generate_routes.py
lines 32-38). The route reads `req.preferences.dislikedIngredients`,
which is not a declared field of `Preferences`, so the attribute access
raises AttributeError and the construction never succeeds. -/
def build_query_text (req : GenerateRequest) : Option String :=
  match req.preferences.getAttrVal "dietaryRestrictions",
      req.preferences.getAttrVal "dislikedIngredients",
      req.preferences.getAttrVal "targetCaloriesPerDay" with
  | some dr, some di, some tc =>
    some ("Create a " ++ toString req.days ++ "-day meal plan using " ++ req.store
      ++ " grocery items.\n    Dietary restrictions: " ++ pyOrStr dr "none"
      ++ ".\n    Disliked ingredients: " ++ pyOrStr di "none"
      ++ ".\n    Target calories per day: " ++ pyOrStr tc "not specified"
      ++ ".\n    Prefer variety and practical meals.")
  | _, _, _ => Option.none

/-- Errors surfaced by the post-generation acceptance path of `generate`
(generate_routes.py lines 63-90). -/
inductive GenerateErr where
  | emptyResponse
  | notJson
  | schemaInvalid (errors : List String)
  | emptyIds
  | invalidIds (missing : List Int)
deriving DecidableEq, Repr

/-- The acceptance path of `generate` applied to the raw model output
(generate_routes.py lines 63-90): empty-output guard, schema validation,
id extraction, grounding verification; on success the response is built
from the accepted document (title, dates, serialized plan). -/
def generate_accept (jsonLoads : String → Option PyVal) (db : DB) (store : String)
    (content : String) : Except GenerateErr MealPlanDoc :=
  if content.isEmpty then .error .emptyResponse
  else
    match parse_and_validate_plan_json jsonLoads content with
    | .errEmptyResponse => .error .emptyResponse
    | .errNotJson => .error .notJson
    | .errSchemaInvalid es => .error (.schemaInvalid es)
    | .ok doc =>
      match verify_item_ids_belong_to_store db store (extract_item_ids doc) with
      | .ok => .ok doc
      | .errEmptyIds => .error .emptyIds
      | .errInvalidIds missing => .error (.invalidIds missing)

/-- C8: the query construction of `generate` fails for every request —
`dislikedIngredients` is not a field of `Preferences` (models.py declares
`allergies`), so the attribute access raises before any placeholder
substitution can happen. -/
theorem C8_query_construction_always_fails (req : GenerateRequest) :
    build_query_text req = Option.none := by
  unfold build_query_text
  rfl

/-- Acceptance characterization of the validator alone. -/
theorem parse_ok_iff (jsonLoads : String → Option PyVal) (content : String) (d : MealPlanDoc) :
    parse_and_validate_plan_json jsonLoads content = ValidateResult.ok d ↔
      (content.isEmpty || (pyStrip content).isEmpty) = false
      ∧ ∃ raw, jsonLoads content = some raw ∧ model_validate raw = Except.ok d := by
  unfold parse_and_validate_plan_json
  by_cases hg : (content.isEmpty || (pyStrip content).isEmpty) = true
  · rw [if_pos hg]
    constructor
    · intro h
      exact absurd h (by simp)
    · rintro ⟨hf, -⟩
      rw [hg] at hf
      exact Bool.noConfusion hf
  · have hgf : (content.isEmpty || (pyStrip content).isEmpty) = false := by
      cases hb : (content.isEmpty || (pyStrip content).isEmpty)
      · rfl
      · exact absurd hb hg
    rw [if_neg hg]
    rcases hj : jsonLoads content with _ | raw
    · constructor
      · intro h
        exact absurd h (by simp)
      · rintro ⟨-, r, hr, -⟩
        exact Option.noConfusion hr
    · cases hm : model_validate raw with
      | error errs =>
        simp only [hm]
        constructor
        · intro h
          exact absurd h (by simp)
        · rintro ⟨-, r, hr, hmr⟩
          obtain rfl : raw = r := Option.some.inj hr
          rw [hm] at hmr
          exact Except.noConfusion hmr
      | ok doc2 =>
        simp only [hm]
        constructor
        · intro h
          obtain rfl : doc2 = d := by simpa using h
          exact ⟨hgf, raw, rfl, hm⟩
        · rintro ⟨-, r, hr, hmr⟩
          obtain rfl : raw = r := Option.some.inj hr
          rw [hm] at hmr
          obtain rfl : doc2 = d := Except.ok.inj hmr
          rfl

/-- C7 (amended): an accepted generate response is exactly a schema-valid,
store-grounded document parsed from the model output; the acceptance path
imposes no relation between the number of DayPlan entries and the
requested days, and no non-emptiness of the title — both are whatever the
model returned. -/
theorem C7_accept_characterization (jsonLoads : String → Option PyVal) (db : DB)
    (store : String) (content : String) (doc : MealPlanDoc) :
    generate_accept jsonLoads db store content = Except.ok doc ↔
      (content.isEmpty || (pyStrip content).isEmpty) = false
      ∧ (∃ raw, jsonLoads content = some raw ∧ model_validate raw = Except.ok doc)
      ∧ verify_item_ids_belong_to_store db store (extract_item_ids doc) = VerifyResult.ok := by
  unfold generate_accept
  by_cases hce : content.isEmpty = true
  · rw [if_pos hce]
    constructor
    · intro h
      exact absurd h (by simp)
    · rintro ⟨hf, -, -⟩
      rw [hce] at hf
      exact Bool.noConfusion hf
  · rw [if_neg hce]
    rcases hp : parse_and_validate_plan_json jsonLoads content with _ | _ | es | d2
    · constructor
      · intro h
        exact absurd h (by simp)
      · rintro ⟨hgf, hex, -⟩
        have := (parse_ok_iff jsonLoads content doc).mpr ⟨hgf, hex⟩
        rw [hp] at this
        exact ValidateResult.noConfusion this
    · constructor
      · intro h
        exact absurd h (by simp)
      · rintro ⟨hgf, hex, -⟩
        have := (parse_ok_iff jsonLoads content doc).mpr ⟨hgf, hex⟩
        rw [hp] at this
        exact ValidateResult.noConfusion this
    · constructor
      · intro h
        exact absurd h (by simp)
      · rintro ⟨hgf, hex, -⟩
        have := (parse_ok_iff jsonLoads content doc).mpr ⟨hgf, hex⟩
        rw [hp] at this
        exact ValidateResult.noConfusion this
    · change (match verify_item_ids_belong_to_store db store (extract_item_ids d2) with
          | VerifyResult.ok => Except.ok d2
          | VerifyResult.errEmptyIds => Except.error GenerateErr.emptyIds
          | VerifyResult.errInvalidIds m => Except.error (GenerateErr.invalidIds m))
          = Except.ok doc ↔
        (content.isEmpty || (pyStrip content).isEmpty) = false
        ∧ (∃ raw, jsonLoads content = some raw ∧ model_validate raw = Except.ok doc)
        ∧ verify_item_ids_belong_to_store db store (extract_item_ids doc) = VerifyResult.ok
      rcases hv : verify_item_ids_belong_to_store db store (extract_item_ids d2)
        with _ | _ | missing
      · constructor
        · intro h
          obtain rfl : d2 = doc := by simpa using h
          have hpr := (parse_ok_iff jsonLoads content d2).mp hp
          exact ⟨hpr.1, hpr.2, hv⟩
        · rintro ⟨hgf, hex, -⟩
          have := (parse_ok_iff jsonLoads content doc).mpr ⟨hgf, hex⟩
          rw [hp] at this
          obtain rfl : d2 = doc := by simpa using this
          rfl
      · constructor
        · intro h
          exact absurd h (by simp)
        · rintro ⟨hgf, hex, hver⟩
          have := (parse_ok_iff jsonLoads content doc).mpr ⟨hgf, hex⟩
          rw [hp] at this
          obtain rfl : d2 = doc := by simpa using this
          rw [hver] at hv
          exact VerifyResult.noConfusion hv
      · constructor
        · intro h
          exact absurd h (by simp)
        · rintro ⟨hgf, hex, hver⟩
          have := (parse_ok_iff jsonLoads content doc).mpr ⟨hgf, hex⟩
          rw [hp] at this
          obtain rfl : d2 = doc := by simpa using this
          rw [hver] at hv
          exact VerifyResult.noConfusion hv

/-- The meals of a fully regular day. -/
def regularMeals : List Meal :=
  [⟨"Breakfast", [⟨7, "apple"⟩]⟩, ⟨"Lunch", [⟨7, "apple"⟩]⟩, ⟨"Dinner", [⟨7, "apple"⟩]⟩]

/-- A schema-valid model output with an empty title and only 2 days. -/
def twoDayDocVal : PyVal :=
  .pdict [("title", .pstr ""), ("startDate", .pstr "2026-01-01"),
    ("endDate", .pstr "2026-01-03"),
    ("plan", .plist [
      .pdict [("date", .pstr "2026-01-01"),
        ("meals", .plist [mealPy "Breakfast", mealPy "Lunch", mealPy "Dinner"])],
      .pdict [("date", .pstr "2026-01-02"),
        ("meals", .plist [mealPy "Breakfast", mealPy "Lunch", mealPy "Dinner"])]])]

/-- The document the validator accepts for `twoDayDocVal`. -/
def twoDayDoc : MealPlanDoc :=
  ⟨"", "2026-01-01", "2026-01-03",
    [⟨"2026-01-01", regularMeals⟩, ⟨"2026-01-02", regularMeals⟩]⟩

/-- A catalog holding item 7 in store TJ. -/
def dbSeven : DB := ⟨[⟨7, "TJ", "apple", .none, .none, .none, .none, .none⟩], [], [], [], [], []⟩

/-- A json.loads stub mapping the model output text to its parsed value. -/
def jlTwoDay : String → Option PyVal :=
  fun s => if s == "PLAN2" then some twoDayDocVal else Option.none

/-- C7 counterexample: a generate request for days = 3 whose model output
is a schema-valid, fully grounded 2-day plan with an empty title is
accepted end to end — the acceptance path never compares the plan length
with the requested days (days is not even an input to it) and never
requires a non-empty title. -/
theorem C7_counterexample_two_days_accepted :
    generate_accept jlTwoDay dbSeven "TJ" "PLAN2" = Except.ok twoDayDoc
    ∧ twoDayDoc.plan.length = 2
    ∧ twoDayDoc.title = "" :=
  ⟨rfl, rfl, rfl⟩

/-- Witness for C7: the characterization applied at the concrete accepted
run. -/
theorem C7_accept_characterization_witness :
    generate_accept jlTwoDay dbSeven "tj" "PLAN2" = Except.ok twoDayDoc :=
  (C7_accept_characterization jlTwoDay dbSeven "tj" "PLAN2" twoDayDoc).mpr
    ⟨rfl, ⟨twoDayDocVal, rfl, rfl⟩, rfl⟩
